import Mathlib

/-! Shallow embedding of the colortty color-scheme converter (src/color.rs and
src/provider.rs) in Lean 4.

Rust strings are modelled as lists of characters (all inputs of interest are
ASCII, so byte indices and char indices coincide).  Fallible Rust functions
returning anyhow::Result are modelled with Except over the ParseError type of
src/color.rs; functions that can also panic (index/slice out of bounds) are
modelled with the three-outcome type RRes, whose third constructor marks a
Rust panic.
-/

namespace Colortty

/-- Rust &str / String, as a list of characters. -/
abbrev Str := List Char

/-- The ParseError enum of src/color.rs (payload strings kept; the boxed Xml
payload of NotCharacterNode is added once Xml is defined, so here it keeps
the offending node as a plain marker defined below). -/
inductive Xml where
  /-- Xml::ElementNode: an element with a tag name and children. -/
  | elem (name : Str) (children : List Xml)
  /-- Xml::CharacterNode: literal text. -/
  | chars (s : Str)
deriving Repr

/-- The ParseError enum of src/color.rs. -/
inductive ParseError where
  | ParseInt
  | ParseFloat
  | InvalidColorFormat (s : Str)
  | InvalidLineFormat (s : Str)
  | UnknownColorName (s : Str)
  | XMLParse
  | NoRootDict
  | NotCharacterNode (x : Xml)
  | UnknownColorComponent (s : Str)
deriving Repr

/-- Result of a Rust computation that may return Ok, return Err, or panic. -/
inductive RRes (α : Type) where
  | ok (a : α)
  | err (e : ParseError)
  | panicked
deriving Repr

namespace RRes

def bind : RRes α → (α → RRes β) → RRes β
  | ok a, f => f a
  | err e, _ => err e
  | panicked, _ => panicked

instance : Monad RRes where
  pure := ok
  bind := bind

end RRes

instance : LawfulMonad RRes :=
  LawfulMonad.mk' RRes (fun x => by cases x <;> rfl) (fun _ _ => rfl)
    (fun x _ _ => by cases x <;> rfl)

/-- The Color struct of src/color.rs: three u8 components (kept as ℕ; all
constructors below produce values below 256). -/
structure Color where
  red : ℕ
  green : ℕ
  blue : ℕ
deriving Repr, DecidableEq

/-- Default::default() for Color: all components zero. -/
def Color.dflt : Color := ⟨0, 0, 0⟩

/-- Decimal digit test, as used by Rust integer parsing. -/
def isDigitC (c : Char) : Bool := 48 ≤ c.toNat ∧ c.toNat ≤ 57

/-- Hex digit test: the class [0-9a-fA-F]. -/
def isHexC (c : Char) : Bool :=
  (48 ≤ c.toNat ∧ c.toNat ≤ 57) ∨ (97 ≤ c.toNat ∧ c.toNat ≤ 102) ∨
    (65 ≤ c.toNat ∧ c.toNat ≤ 70)

/-- Value of a decimal digit character. -/
def digVal (c : Char) : ℕ := c.toNat - 48

/-- Value of a hex digit character (either case). -/
def hexVal (c : Char) : ℕ :=
  if c.toNat ≤ 57 then c.toNat - 48
  else if 97 ≤ c.toNat then c.toNat - 87
  else c.toNat - 55

/-- Numeric value of a decimal digit string. -/
def decVal (s : Str) : ℕ := s.foldl (fun a c => a * 10 + digVal c) 0

/-- Numeric value of a hex digit string. -/
def hexValL (s : Str) : ℕ := s.foldl (fun a c => a * 16 + hexVal c) 0

/-- Rust unsigned-integer parsing accepts one optional leading '+'. -/
def stripPlus (s : Str) : Str :=
  if s.head? = some '+' then s.drop 1 else s

/-- Model of `s.parse::<u8>()` (src/color.rs parse_int body): optional
leading '+', at least one decimal digit, value at most 255; any other input
is a ParseInt error. -/
def parse_int (s : Str) : Except ParseError ℕ :=
  if stripPlus s ≠ [] ∧ (stripPlus s).all isDigitC then
    if decVal (stripPlus s) ≤ 255 then .ok (decVal (stripPlus s))
    else .error .ParseInt
  else .error .ParseInt

/-- Model of `u8::from_str_radix(s, 16)` (src/color.rs parse_hex body):
optional leading '+', at least one hex digit, value at most 255; the source
maps its failure to ParseError::ParseInt. -/
def parse_hex (s : Str) : Except ParseError ℕ :=
  if stripPlus s ≠ [] ∧ (stripPlus s).all isHexC then
    if hexValL (stripPlus s) ≤ 255 then .ok (hexValL (stripPlus s))
    else .error .ParseInt
  else .error .ParseInt

/-- Model of `line.split(c)` for a char pattern: splits at every occurrence,
keeping empty pieces (so the result always has one more piece than there are
occurrences of c). -/
def splitCh (c : Char) : Str → List Str
  | [] => [[]]
  | x :: xs =>
    if x = c then [] :: splitCh c xs
    else
      match splitCh c xs with
      | h :: t => (x :: h) :: t
      | [] => [[x]]

/-- Model of Rust's byte slice `&s[i..j]`: None marks the out-of-bounds panic. -/
def sliceR (s : Str) (i j : ℕ) : Option Str :=
  if i ≤ j ∧ j ≤ s.length then some ((s.drop i).take (j - i)) else none

/-- Color::from_mintty_color (src/color.rs:75-84): splits on commas, requires
exactly three components, parses each as a u8. -/
def from_mintty_color (s : Str) : Except ParseError Color :=
  match splitCh ',' s with
  | [r, g, b] => do
    let red ← parse_int r
    let green ← parse_int g
    let blue ← parse_int b
    .ok ⟨red, green, blue⟩
  | _ => .error (.InvalidColorFormat s)

/-- Color::from_gogh_color (src/color.rs:86-91): slices the byte ranges
1..3, 3..5, 5..7 without any bound check (an out-of-range slice panics) and
hex-parses each pair. -/
def from_gogh_color (s : Str) : RRes Color :=
  match sliceR s 1 3 with
  | none => .panicked
  | some p1 =>
    match parse_hex p1 with
    | .error e => .err e
    | .ok red =>
      match sliceR s 3 5 with
      | none => .panicked
      | some p2 =>
        match parse_hex p2 with
        | .error e => .err e
        | .ok green =>
          match sliceR s 5 7 with
          | none => .panicked
          | some p3 =>
            match parse_hex p3 with
            | .error e => .err e
            | .ok blue => .ok ⟨red, green, blue⟩

/-- Lowercase hex digit character for a value below 16. -/
def hexDg (k : ℕ) : Char := Char.ofNat (if k < 10 then 48 + k else 87 + k)

/-- Two lowercase hex digits, zero padded, for a u8 value (the `{:>02x}`
rendering of a byte). -/
def pad2 (n : ℕ) : Str := [hexDg (n / 16), hexDg (n % 16)]

/-- Color::to_hex (src/color.rs:93-95): "0x" followed by the three components
as two lowercase zero-padded hex digits each. -/
def to_hex (c : Color) : Str :=
  '0' :: 'x' :: (pad2 c.red ++ pad2 c.green ++ pad2 c.blue)

/-- Rust `str::lines()` drops at most one trailing carriage return per line. -/
def stripCR (l : Str) : Str :=
  if l.getLast? = some (Char.ofNat 13) then l.dropLast else l

/-- Model of Rust `content.lines()`: split on newline characters; a final
newline does not produce a trailing empty line, and the empty string has no
lines; each line loses one trailing carriage return. -/
def linesR (s : Str) : List Str :=
  if s = [] then []
  else
    let parts := splitCh '\n' s
    (if parts.getLast? = some [] then parts.dropLast else parts).map stripCR

/-- The ColorScheme struct of src/color.rs: the 20-slot canonical palette.
cursor_text and cursor are optional; everything else defaults to black. -/
structure ColorScheme where
  foreground : Color := Color.dflt
  background : Color := Color.dflt
  cursor_text : Option Color := none
  cursor : Option Color := none
  black : Color := Color.dflt
  red : Color := Color.dflt
  green : Color := Color.dflt
  yellow : Color := Color.dflt
  blue : Color := Color.dflt
  magenta : Color := Color.dflt
  cyan : Color := Color.dflt
  white : Color := Color.dflt
  bright_black : Color := Color.dflt
  bright_red : Color := Color.dflt
  bright_green : Color := Color.dflt
  bright_yellow : Color := Color.dflt
  bright_blue : Color := Color.dflt
  bright_magenta : Color := Color.dflt
  bright_cyan : Color := Color.dflt
  bright_white : Color := Color.dflt
deriving Repr, DecidableEq

/-- ColorScheme::default(): all colors black, both cursor slots absent. -/
def ColorScheme.dflt : ColorScheme := {}

/-- The match over the 18 recognized mintty key names in from_minttyrc
(src/color.rs:167-187): assigns the decoded color to the matching slot, or
fails with UnknownColorName. -/
def minttyAssign (name : Str) (color : Color) (s : ColorScheme) :
    Except ParseError ColorScheme :=
  if name = ("ForegroundColour").toList then .ok { s with foreground := color }
  else if name = ("BackgroundColour").toList then .ok { s with background := color }
  else if name = ("Black").toList then .ok { s with black := color }
  else if name = ("Red").toList then .ok { s with red := color }
  else if name = ("Green").toList then .ok { s with green := color }
  else if name = ("Yellow").toList then .ok { s with yellow := color }
  else if name = ("Blue").toList then .ok { s with blue := color }
  else if name = ("Magenta").toList then .ok { s with magenta := color }
  else if name = ("Cyan").toList then .ok { s with cyan := color }
  else if name = ("White").toList then .ok { s with white := color }
  else if name = ("BoldRed").toList then .ok { s with bright_red := color }
  else if name = ("BoldBlack").toList then .ok { s with bright_black := color }
  else if name = ("BoldGreen").toList then .ok { s with bright_green := color }
  else if name = ("BoldYellow").toList then .ok { s with bright_yellow := color }
  else if name = ("BoldBlue").toList then .ok { s with bright_blue := color }
  else if name = ("BoldMagenta").toList then .ok { s with bright_magenta := color }
  else if name = ("BoldCyan").toList then .ok { s with bright_cyan := color }
  else if name = ("BoldWhite").toList then .ok { s with bright_white := color }
  else .error (.UnknownColorName name)

/-- The list of the 18 mintty key names recognized by minttyAssign. -/
def minttyNames : List Str :=
  [("ForegroundColour").toList, ("BackgroundColour").toList, ("Black").toList,
   ("Red").toList, ("Green").toList, ("Yellow").toList, ("Blue").toList,
   ("Magenta").toList, ("Cyan").toList, ("White").toList, ("BoldRed").toList,
   ("BoldBlack").toList, ("BoldGreen").toList, ("BoldYellow").toList,
   ("BoldBlue").toList, ("BoldMagenta").toList, ("BoldCyan").toList,
   ("BoldWhite").toList]

/-- The loop body of ColorScheme::from_minttyrc (src/color.rs:160-188): split
the line at every '=', require exactly two pieces, decode the right piece as
a mintty color, then look the left piece up among the 18 key names. -/
def minttyLine (s : ColorScheme) (line : Str) : Except ParseError ColorScheme :=
  match splitCh '=' line with
  | [name, value] => do
    let color ← from_mintty_color value
    minttyAssign name color s
  | _ => .error (.InvalidLineFormat line)

/-- ColorScheme::from_minttyrc (src/color.rs:158-190): fold minttyLine over
the lines of the input, starting from the default scheme. -/
def from_minttyrc (content : Str) : Except ParseError ColorScheme :=
  (linesR content).foldlM minttyLine ColorScheme.dflt

/-- An xml::Element: a tag name together with its children. -/
abbrev XmlElem := Str × List Xml

/-- Model of Rust `text.parse::<f32>()` restricted to plain decimal literals
(optional sign, integer digits, optional fraction): returns the sign and the
exact numerator/denominator (a power of ten) of the decimal value, or none
for malformed text.  The f32 value is this decimal rounded to binary; the
development keeps the exact value, which agrees with f32 wherever the claims
evaluate it.  decTail handles the remainder after the sign and the integer
digits: either nothing, or a fraction part introduced by a dot. -/
def decTail (neg : Bool) (ip r1 : Str) : Option (Bool × ℕ × ℕ) :=
  match r1 with
  | [] => if ip = [] then none else some (neg, decVal ip, 1)
  | '.' :: fr =>
    if fr.drop (fr.takeWhile isDigitC).length = [] ∧
        (ip ≠ [] ∨ fr.takeWhile isDigitC ≠ []) then
      some (neg, decVal ip * 10 ^ (fr.takeWhile isDigitC).length
        + decVal (fr.takeWhile isDigitC), 10 ^ (fr.takeWhile isDigitC).length)
    else none
  | _ => none

/-- Model of `text.parse::<f32>()` on plain decimal literals: strip an
optional sign, then integer digits with an optional fraction. -/
def parseFloatParts (s : Str) : Option (Bool × ℕ × ℕ) :=
  match s with
  | '-' :: t => decTail true (t.takeWhile isDigitC) (t.drop (t.takeWhile isDigitC).length)
  | '+' :: t => decTail false (t.takeWhile isDigitC) (t.drop (t.takeWhile isDigitC).length)
  | s => decTail false (s.takeWhile isDigitC) (s.drop (s.takeWhile isDigitC).length)

/-- The exact rational value a parsed float text denotes. -/
def parsedFloatVal (s : Str) : Option ℚ :=
  (parseFloatParts s).map fun p =>
    (if p.1 then (-1 : ℚ) else 1) * (p.2.1 : ℚ) / (p.2.2 : ℚ)

/-- Rust `as u8` applied to the f32 product value*255.0: truncation toward
zero, saturating at 0 and 255.  For a nonnegative decimal num/den this is
min 255 (255*num/den) in natural division; a negative value truncates and
clamps to 0. -/
def floatTimes255AsU8 (neg : Bool) (num den : ℕ) : ℕ :=
  if neg then 0 else min 255 (255 * num / den)

/-- extract_text (src/color.rs:114-120): takes the first child of an element
(indexing panics when there are no children) and requires it to be a
character node. -/
def extract_text (e : XmlElem) : RRes Str :=
  match e.2 with
  | [] => .panicked
  | first :: _ =>
    match first with
    | .chars t => .ok t
    | .elem n k => .err (.NotCharacterNode (.elem n k))

/-- extract_real_color (src/color.rs:122-128): extract the element text,
parse it as f32, multiply by 255.0 and cast to u8. -/
def extract_real_color (e : XmlElem) : RRes ℕ :=
  match extract_text e with
  | .ok t =>
    match parseFloatParts t with
    | none => .err .ParseFloat
    | some p => .ok (floatTimes255AsU8 p.1 p.2.1 p.2.2)
  | .err e => .err e
  | .panicked => .panicked

/-- The element-node children of a node list (non-element children skipped),
as used by the iTerm component walk (src/color.rs:212-219). -/
def elemsOf (l : List Xml) : List XmlElem :=
  l.filterMap fun x =>
    match x with
    | .elem n k => some (n, k)
    | .chars _ => none

/-- Model of `element.get_children(name, None)`: the element children whose
tag is the given name. -/
def getChildren (name : Str) (l : List Xml) : List XmlElem :=
  (elemsOf l).filter fun e => e.1 = name

/-- Model of `chunks(2)` keeping only the full pairs, as consumed by the
`if let [color_key, color_value]` pattern (src/color.rs:220-221): a trailing
odd element is dropped. -/
def chunkPairs : List α → List (α × α)
  | a :: b :: t => (a, b) :: chunkPairs t
  | _ => []

/-- The five component keys accepted inside a slot dictionary. -/
def componentNames : List Str :=
  [("Red Component").toList, ("Green Component").toList,
   ("Blue Component").toList, ("Alpha Component").toList,
   ("Color Space").toList]

/-- One iteration of the component loop of from_iterm (src/color.rs:220-237):
read the component key's text and dispatch on it; Alpha Component and Color
Space are skipped, any other name is an UnknownColorComponent error. -/
def componentStep (c : Color) (pair : XmlElem × XmlElem) : RRes Color :=
  match extract_text pair.1 with
  | .ok cname =>
    if cname = ("Red Component").toList then
      match extract_real_color pair.2 with
      | .ok v => .ok { c with red := v }
      | .err e => .err e
      | .panicked => .panicked
    else if cname = ("Green Component").toList then
      match extract_real_color pair.2 with
      | .ok v => .ok { c with green := v }
      | .err e => .err e
      | .panicked => .panicked
    else if cname = ("Blue Component").toList then
      match extract_real_color pair.2 with
      | .ok v => .ok { c with blue := v }
      | .err e => .err e
      | .panicked => .panicked
    else if cname = ("Alpha Component").toList then .ok c
    else if cname = ("Color Space").toList then .ok c
    else .err (.UnknownColorComponent cname)
  | .err e => .err e
  | .panicked => .panicked

/-- The per-slot component walk of from_iterm (src/color.rs:207-237): pair up
the element children two at a time and fold componentStep from the default
color. -/
def processColorDict (children : List Xml) : RRes Color :=
  (chunkPairs (elemsOf children)).foldlM componentStep Color.dflt

/-- The 20 recognized top-level slot names of from_iterm. -/
def itermSlotNames : List Str :=
  [("Ansi 0 Color").toList, ("Ansi 1 Color").toList, ("Ansi 2 Color").toList,
   ("Ansi 3 Color").toList, ("Ansi 4 Color").toList, ("Ansi 5 Color").toList,
   ("Ansi 6 Color").toList, ("Ansi 7 Color").toList, ("Ansi 8 Color").toList,
   ("Ansi 9 Color").toList, ("Ansi 10 Color").toList, ("Ansi 11 Color").toList,
   ("Ansi 12 Color").toList, ("Ansi 13 Color").toList, ("Ansi 14 Color").toList,
   ("Ansi 15 Color").toList, ("Background Color").toList,
   ("Foreground Color").toList, ("Cursor Color").toList,
   ("Cursor Text Color").toList]

/-- The match over top-level slot names in from_iterm (src/color.rs:239-261):
assigns the parsed color to the matching slot; unrecognized names are
silently ignored. -/
def itermAssign (name : Str) (color : Color) (s : ColorScheme) : ColorScheme :=
  if name = ("Ansi 0 Color").toList then { s with black := color }
  else if name = ("Ansi 1 Color").toList then { s with red := color }
  else if name = ("Ansi 2 Color").toList then { s with green := color }
  else if name = ("Ansi 3 Color").toList then { s with yellow := color }
  else if name = ("Ansi 4 Color").toList then { s with blue := color }
  else if name = ("Ansi 5 Color").toList then { s with magenta := color }
  else if name = ("Ansi 6 Color").toList then { s with cyan := color }
  else if name = ("Ansi 7 Color").toList then { s with white := color }
  else if name = ("Ansi 8 Color").toList then { s with bright_black := color }
  else if name = ("Ansi 9 Color").toList then { s with bright_red := color }
  else if name = ("Ansi 10 Color").toList then { s with bright_green := color }
  else if name = ("Ansi 11 Color").toList then { s with bright_yellow := color }
  else if name = ("Ansi 12 Color").toList then { s with bright_blue := color }
  else if name = ("Ansi 13 Color").toList then { s with bright_magenta := color }
  else if name = ("Ansi 14 Color").toList then { s with bright_cyan := color }
  else if name = ("Ansi 15 Color").toList then { s with bright_white := color }
  else if name = ("Background Color").toList then { s with background := color }
  else if name = ("Foreground Color").toList then { s with foreground := color }
  else if name = ("Cursor Color").toList then { s with cursor := some color }
  else if name = ("Cursor Text Color").toList then { s with cursor_text := some color }
  else s

/-- One iteration of the top-level loop of from_iterm (src/color.rs:204-262):
read the slot name from the key element, process the paired dictionary's
components, assign. -/
def itermStep (s : ColorScheme) (kv : XmlElem × XmlElem) : RRes ColorScheme :=
  match extract_text kv.1 with
  | .ok cname =>
    match processColorDict kv.2.2 with
    | .ok color => .ok (itermAssign cname color s)
    | .err e => .err e
    | .panicked => .panicked
  | .err e => .err e
  | .panicked => .panicked

/-- The top-level key/dict pairing of from_iterm (src/color.rs:202-204): the
"key"-named element children of the root dict are zipped with its
"dict"-named element children. -/
def itermPairs (children : List Xml) : List (XmlElem × XmlElem) :=
  (getChildren ("key").toList children).zip (getChildren ("dict").toList children)

/-- ColorScheme::from_iterm after XML parsing (src/color.rs:193-265), taking
the parsed root element: find the first "dict" child (NoRootDict otherwise)
and fold itermStep over its key/dict pairs. -/
def from_iterm_root (root : XmlElem) : RRes ColorScheme :=
  match getChildren ("dict").toList root.2 with
  | [] => .err .NoRootDict
  | rootDict :: _ => (itermPairs rootDict.2).foldlM itermStep ColorScheme.dflt

/-- The character class [A-Z0-9_] of the gogh NAME capture group. -/
def isGoghC (c : Char) : Bool :=
  (65 ≤ c.toNat ∧ c.toNat ≤ 90) ∨ (48 ≤ c.toNat ∧ c.toNat ≤ 57) ∨ c.toNat = 95

/-- Consume an exact literal from the front of a string; none when it is not
there. -/
def eat : Str → Str → Option Str
  | [], l => some l
  | _ :: _, [] => none
  | p :: ps, c :: cs => if c = p then eat ps cs else none

/-- The tail of the gogh regex after the NAME group: exactly a quote, a hash
sign, six hex digits and a closing quote; returns the second capture group
(hash plus the six digits). -/
def matchColor (l : Str) : Option Str :=
  match l with
  | '#' :: rest =>
    if (rest.take 6).length = 6 ∧ (rest.take 6).all isHexC ∧
        (rest.drop 6).head? = some '"' then
      some ('#' :: rest.take 6)
    else none
  | _ => none

/-- A match of the anchored-at-this-offset gogh pattern
`export ([A-Z0-9_]+)="(#[0-9a-fA-F]{6})"`: the literal "export ", a greedy
nonempty NAME run (the character after the run is '=', which is outside the
class, so greediness is unambiguous), the literal `="`, the color group and
the closing quote.  Returns the two capture groups. -/
def matchAt (l : Str) : Option (Str × Str) :=
  match eat ("export ").toList l with
  | none => none
  | some r1 =>
    if r1.takeWhile isGoghC = [] then none
    else
      match eat ['=', '"'] (r1.drop (r1.takeWhile isGoghC).length) with
      | none => none
      | some r2 => (matchColor r2).map fun cs => (r1.takeWhile isGoghC, cs)

/-- Model of `Regex::captures` for the gogh pattern: try every offset from
the left and return the first (leftmost) match's capture groups. -/
def findMatch : Str → Option (Str × Str)
  | [] => none
  | l@(_ :: t) =>
    match matchAt l with
    | some r => some r
    | none => findMatch t

/-- The 18 gogh export names recognized by from_gogh. -/
def goghNames : List Str :=
  [("FOREGROUND_COLOR").toList, ("BACKGROUND_COLOR").toList,
   ("COLOR_01").toList, ("COLOR_02").toList, ("COLOR_03").toList,
   ("COLOR_04").toList, ("COLOR_05").toList, ("COLOR_06").toList,
   ("COLOR_07").toList, ("COLOR_08").toList, ("COLOR_09").toList,
   ("COLOR_10").toList, ("COLOR_11").toList, ("COLOR_12").toList,
   ("COLOR_13").toList, ("COLOR_14").toList, ("COLOR_15").toList,
   ("COLOR_16").toList]

/-- The match over gogh export names (src/color.rs:276-296): COLOR_01..08 are
the eight normal slots in ANSI order, COLOR_09..16 the eight bright slots in
the same order; unrecognized names are silently ignored. -/
def goghAssign (name : Str) (color : Color) (s : ColorScheme) : ColorScheme :=
  if name = ("FOREGROUND_COLOR").toList then { s with foreground := color }
  else if name = ("BACKGROUND_COLOR").toList then { s with background := color }
  else if name = ("COLOR_01").toList then { s with black := color }
  else if name = ("COLOR_02").toList then { s with red := color }
  else if name = ("COLOR_03").toList then { s with green := color }
  else if name = ("COLOR_04").toList then { s with yellow := color }
  else if name = ("COLOR_05").toList then { s with blue := color }
  else if name = ("COLOR_06").toList then { s with magenta := color }
  else if name = ("COLOR_07").toList then { s with cyan := color }
  else if name = ("COLOR_08").toList then { s with white := color }
  else if name = ("COLOR_09").toList then { s with bright_black := color }
  else if name = ("COLOR_10").toList then { s with bright_red := color }
  else if name = ("COLOR_11").toList then { s with bright_green := color }
  else if name = ("COLOR_12").toList then { s with bright_yellow := color }
  else if name = ("COLOR_13").toList then { s with bright_blue := color }
  else if name = ("COLOR_14").toList then { s with bright_magenta := color }
  else if name = ("COLOR_15").toList then { s with bright_cyan := color }
  else if name = ("COLOR_16").toList then { s with bright_white := color }
  else s

/-- The loop body of ColorScheme::from_gogh (src/color.rs:272-298): if the
pattern matches the line, decode the color capture with from_gogh_color (its
error propagating) and dispatch on the name capture; otherwise the line is
skipped. -/
def goghLine (s : ColorScheme) (line : Str) : RRes ColorScheme :=
  match findMatch line with
  | none => .ok s
  | some (name, colorStr) =>
    match from_gogh_color colorStr with
    | .ok color => .ok (goghAssign name color s)
    | .err e => .err e
    | .panicked => .panicked

/-- ColorScheme::from_gogh (src/color.rs:268-300): fold goghLine over the
lines of the input, starting from the default scheme. -/
def from_gogh (content : Str) : RRes ColorScheme :=
  (linesR content).foldlM goghLine ColorScheme.dflt

/-- The single-quote character used around color values in the rendered
configuration. -/
def sq : Char := Char.ofNat 39

/-- One rendered key/value line of to_toml: the label text, the quoted hex
color and a newline. -/
def tomlLine (label : String) (c : Color) : Str :=
  label.toList ++ sq :: (to_hex c ++ [sq, '\n'])

/-- The cursor block of ColorScheme::to_toml (src/color.rs:304-316): present
exactly when both cursor_text and cursor are set, empty otherwise. -/
def cursorColors (s : ColorScheme) : Str :=
  match s.cursor_text, s.cursor with
  | some ct, some cu =>
    ("\n# Cursor colors\n[colors.cursor]\n").toList
      ++ tomlLine "text =   " ct ++ tomlLine "cursor = " cu
  | _, _ => []

/-- ColorScheme::to_toml (src/color.rs:303-367): the fixed document with the
primary block, the (possibly empty) cursor block, and the normal and bright
blocks. -/
def to_toml (s : ColorScheme) : Str :=
  ("\n# Default colors\n[colors.primary]\n").toList
    ++ tomlLine "background = " s.background
    ++ tomlLine "foreground = " s.foreground
    ++ cursorColors s
    ++ ("\n# Normal colors\n[colors.normal]\n").toList
    ++ tomlLine "black =   " s.black
    ++ tomlLine "red =     " s.red
    ++ tomlLine "green =   " s.green
    ++ tomlLine "yellow =  " s.yellow
    ++ tomlLine "blue =    " s.blue
    ++ tomlLine "magenta = " s.magenta
    ++ tomlLine "cyan =    " s.cyan
    ++ tomlLine "white =   " s.white
    ++ ("\n# Bright colors\n[colors.bright]\n").toList
    ++ tomlLine "black =   " s.bright_black
    ++ tomlLine "red =     " s.bright_red
    ++ tomlLine "green =   " s.bright_green
    ++ tomlLine "yellow =  " s.bright_yellow
    ++ tomlLine "blue =    " s.bright_blue
    ++ tomlLine "magenta = " s.bright_magenta
    ++ tomlLine "cyan =    " s.bright_cyan
    ++ tomlLine "white =   " s.bright_white

/-- The filename filter of Provider::download_all (src/provider.rs:97-99):
keep files that do not start with an underscore and end with the provider's
extension. -/
def filterFiles (ext : Str) (names : List Str) : List Str :=
  names.filter fun n => ¬ n.head? = some '_' ∧ ext.isSuffixOf n

/-- State of the download loop of Provider::download_all: the futures pushed
since the last join (created but not yet polled), and the batches already
joined (each batch's futures ran concurrently, and the whole batch completed
before the next began). -/
structure BatchState (α : Type) where
  pending : List α
  executed : List (List α)
deriving Repr, DecidableEq

/-- One iteration of the download loop (src/provider.rs:93-118): push the new
fetch future, and when more than 10 futures are pending, join them all as
one concurrent batch. -/
def batchStep (st : BatchState α) (x : α) : BatchState α :=
  if (st.pending ++ [x]).length > 10 then ⟨[], st.executed ++ [st.pending ++ [x]]⟩
  else ⟨st.pending ++ [x], st.executed⟩

/-- The loop of Provider::download_all over the filtered file list.  After
the loop the function returns Ok(()) (src/provider.rs:120); the futures
still pending are dropped without ever being polled, so only the joined
batches perform any fetch. -/
def downloadAllBatches (ext : Str) (names : List Str) : List (List Str) :=
  ((filterFiles ext names).foldl batchStep ⟨[], []⟩).executed

/-- The files Provider::download_all actually fetches and writes: exactly the
members of the joined batches. -/
def downloadAllFetched (ext : Str) (names : List Str) : List Str :=
  (downloadAllBatches ext names).flatten

/-- The peak number of concurrently in-flight fetches during download_all:
the size of the largest joined batch. -/
def maxInFlight (ext : Str) (names : List Str) : ℕ :=
  ((downloadAllBatches ext names).map List.length).foldr max 0

/-- Decimal digit character for a value below 10. -/
def decDg (k : ℕ) : Char := Char.ofNat (48 + k)

/-- Canonical decimal rendering of a natural number below 1000 (enough for
u8 components), used to build the "R,G,B" input the claims quantify over. -/
def natToDec (n : ℕ) : Str :=
  if n < 10 then [decDg n]
  else if n < 100 then [decDg (n / 10), decDg (n % 10)]
  else [decDg (n / 100), decDg (n / 10 % 10), decDg (n % 10)]

/-- The mintty color text "R,G,B" for the given components. -/
def minttyTriple (r g b : ℕ) : Str :=
  natToDec r ++ ',' :: (natToDec g ++ ',' :: natToDec b)

/-- Lowercase hex digit characters: [0-9a-f]. -/
def isLowerHexC (c : Char) : Bool :=
  (48 ≤ c.toNat ∧ c.toNat ≤ 57) ∨ (97 ≤ c.toNat ∧ c.toNat ≤ 102)

/-- A root dict children list that alternates key elements and dict elements
(character nodes such as inter-element whitespace may appear anywhere and
are skipped), together with the intended (key element, dict element)
pairing. -/
inductive AltKD : List Xml → List (XmlElem × XmlElem) → Prop where
  | nil : AltKD [] []
  | skip (s : Str) {rest : List Xml} {ps : List (XmlElem × XmlElem)} :
      AltKD rest ps → AltKD (Xml.chars s :: rest) ps
  | pair (kc dc : List Xml) {rest : List Xml} {ps : List (XmlElem × XmlElem)} :
      AltKD rest ps →
      AltKD (Xml.elem (("key").toList) kc :: Xml.elem (("dict").toList) dc :: rest)
        (((("key").toList, kc), (("dict").toList, dc)) :: ps)

/-- Eleven distinct catalog filenames with the gogh extension. -/
def elevenShFiles : List Str :=
  [("a.sh").toList, ("b.sh").toList, ("c.sh").toList, ("d.sh").toList,
   ("e.sh").toList, ("f.sh").toList, ("g.sh").toList, ("h.sh").toList,
   ("i.sh").toList, ("j.sh").toList, ("k.sh").toList]

/-- A catalog listing with a single scheme file. -/
def oneItermFile : List Str := [("Dracula.itermcolors").toList]

/-- A plist root whose root dict carries a key whose value is a string (not
a dict) before a second key whose value is a dict: the listing-order zip
pairs the first key with the second key's dictionary. -/
def c7Root : XmlElem :=
  (("plist").toList,
   [Xml.elem (("dict").toList)
     [Xml.elem (("key").toList) [Xml.chars (("Ansi 7 Color").toList)],
      Xml.elem (("string").toList) [Xml.chars (("meta").toList)],
      Xml.elem (("key").toList) [Xml.chars (("Ansi 0 Color").toList)],
      Xml.elem (("dict").toList)
        [Xml.elem (("key").toList) [Xml.chars (("Red Component").toList)],
         Xml.elem (("real").toList) [Xml.chars (("1").toList)]]]])

/-- A slot dictionary whose single component pair carries an unrecognized
component key. -/
def weirdComponentDict : List Xml :=
  [Xml.elem (("key").toList) [Xml.chars (("Weird Component").toList)],
   Xml.elem (("real").toList) [Xml.chars (("1").toList)]]

/-- A top-level key element with an unrecognized slot name, and an empty
slot dictionary. -/
def bogusSlotPair : XmlElem × XmlElem :=
  ((("key").toList, [Xml.chars (("Bogus Color").toList)]), (("dict").toList, []))

/-- A scheme with a cursor color but no cursor-text color. -/
def cursorOnlyScheme : ColorScheme := { cursor := some ⟨1, 2, 3⟩ }

/-- Root-dict children alternating whitespace, a key element and a dict
element. -/
def altFixtureChildren : List Xml :=
  [Xml.chars ((" ").toList),
   Xml.elem (("key").toList) [Xml.chars (("Foreground Color").toList)],
   Xml.elem (("dict").toList) []]

/-! ## Helper lemmas -/

@[simp] theorem RRes.bind_ok (a : α) (f : α → RRes β) :
    RRes.bind (RRes.ok a) f = f a := rfl

@[simp] theorem RRes.bind_err (e : ParseError) (f : α → RRes β) :
    RRes.bind (RRes.err e) f = RRes.err e := rfl

@[simp] theorem RRes.pure_eq (a : α) : (pure a : RRes α) = RRes.ok a := rfl

@[simp] theorem RRes.bind_eq (x : RRes α) (f : α → RRes β) :
    x >>= f = RRes.bind x f := rfl

theorem splitCh_not_mem {c : Char} {a : Str} (h : c ∉ a) : splitCh c a = [a] := by
  induction a with
  | nil => rfl
  | cons x xs ih =>
    have hx : ¬ x = c := fun he => h (he ▸ List.mem_cons_self x xs)
    have hxs : c ∉ xs := fun he => h (List.mem_cons_of_mem x he)
    simp only [splitCh, if_neg hx, ih hxs]

theorem splitCh_append {c : Char} {a : Str} (b : Str) (h : c ∉ a) :
    splitCh c (a ++ c :: b) = a :: splitCh c b := by
  induction a with
  | nil => simp [splitCh]
  | cons x xs ih =>
    have hx : ¬ x = c := fun he => h (he ▸ List.mem_cons_self x xs)
    have hxs : c ∉ xs := fun he => h (List.mem_cons_of_mem x he)
    simp only [List.cons_append, splitCh, if_neg hx]
    rw [show xs.append (c :: b) = xs ++ c :: b from rfl, ih hxs]

theorem foldl_batchStep_inv {α : Type} (items : List α) (st : BatchState α)
    (h1 : st.pending.length ≤ 10) (h2 : ∀ b ∈ st.executed, b.length ≤ 11) :
    (items.foldl batchStep st).pending.length ≤ 10 ∧
      ∀ b ∈ (items.foldl batchStep st).executed, b.length ≤ 11 := by
  induction items generalizing st with
  | nil => exact ⟨h1, h2⟩
  | cons x xs ih =>
    rw [List.foldl_cons]
    apply ih
    · unfold batchStep
      by_cases h : (st.pending ++ [x]).length > 10
      · rw [if_pos h]
        show ([] : List α).length ≤ 10
        simp
      · rw [if_neg h]
        show (st.pending ++ [x]).length ≤ 10
        exact le_of_not_lt h
    · unfold batchStep
      by_cases h : (st.pending ++ [x]).length > 10
      · rw [if_pos h]
        show ∀ b ∈ st.executed ++ [st.pending ++ [x]], b.length ≤ 11
        intro b hb
        rcases List.mem_append.1 hb with hb | hb
        · exact h2 b hb
        · simp only [List.mem_singleton] at hb
          subst hb
          simp only [List.length_append, List.length_cons, List.length_nil]
          omega
      · rw [if_neg h]
        exact h2

/-! ## Claim C1 -/

/-- Claim C1 counterexample: a listing of eleven matching files is joined as
a single batch of eleven concurrently in-flight fetches, so the stated bound
of ten in-flight fetches is violated. -/
theorem c1_counterexample_eleven_in_flight :
    downloadAllBatches ((".sh").toList) elevenShFiles = [elevenShFiles] ∧
    maxInFlight ((".sh").toList) elevenShFiles = 11 := ⟨rfl, rfl⟩

/-- Claim C1 (amended): every batch download_all joins holds at most eleven
concurrently in-flight fetches (the loop flushes as soon as more than ten
futures are pending, i.e. at eleven); batches are joined one after another,
each awaited in full before the next fetch is created. -/
theorem c1_download_batches_le_eleven (ext : Str) (names : List Str) :
    ∀ b ∈ downloadAllBatches ext names, b.length ≤ 11 :=
  (foldl_batchStep_inv (filterFiles ext names) ⟨[], []⟩ (by simp)
    (by intro b hb; simp at hb)).2

/-- Witness for c1_download_batches_le_eleven at a concrete batch. -/
theorem c1_download_batches_le_eleven_witness : elevenShFiles.length ≤ 11 :=
  c1_download_batches_le_eleven ((".sh").toList) elevenShFiles elevenShFiles
    (by rw [show downloadAllBatches ((".sh").toList) elevenShFiles =
      [elevenShFiles] from rfl]; exact List.mem_singleton_self _)

/-! ## Claim C2 -/

/-- Claim C2 (code_bug evidence): a single-file listing passes the filter,
yet download_all never joins a batch for it, so the file is never fetched or
written even though the call returns successfully; only full batches of
eleven are ever fetched, as the eleven-file listing shows. -/
theorem c2_trailing_files_never_fetched :
    filterFiles ((".itermcolors").toList) oneItermFile = oneItermFile ∧
    downloadAllFetched ((".itermcolors").toList) oneItermFile = [] ∧
    downloadAllFetched ((".sh").toList) elevenShFiles = elevenShFiles :=
  ⟨rfl, rfl, rfl⟩

/-! ## Claim C3 -/

/-- Claim C3 (code_bug evidence): from_gogh_color panics (out-of-bounds
slice) on the empty string and on the three-character string "#12" rather
than failing cleanly; on 7-character strings it decodes the three pairs at
offsets 1-2, 3-4, 5-6 and reports a parse error on a non-hex pair. -/
theorem c3_from_gogh_color_short_panics :
    from_gogh_color ([] : Str) = .panicked ∧
    from_gogh_color (("#12").toList) = .panicked ∧
    from_gogh_color (("#0a1B2c").toList) = .ok ⟨10, 27, 44⟩ ∧
    from_gogh_color (("#0g1122").toList) = .err .ParseInt :=
  ⟨rfl, rfl, rfl, rfl⟩

/-! ## Claim C4 -/

/-- Claim C4 counterexample: an empty line is not skipped but fails with
InvalidLineFormat; a line with two equals signs is split at every equals
sign, giving three parts and InvalidLineFormat (the claim's split on the
first equals sign would decode "1=2" as a color instead); and for an
unknown key with an undecodable value the color decode error wins, where
the claim's key-lookup-first order would report UnknownColorName. -/
theorem c4_counterexample_empty_line :
    from_minttyrc (("\n").toList) = .error (.InvalidLineFormat []) ∧
    from_minttyrc (("Black=1=2").toList) =
      .error (.InvalidLineFormat (("Black=1=2").toList)) ∧
    from_minttyrc (("Bogus=zz").toList) =
      .error (.InvalidColorFormat (("zz").toList)) :=
  ⟨rfl, rfl, rfl⟩

/-- Claim C4 (amended): from_minttyrc folds over all lines, including empty
ones; each line is split at every equals sign and a line not yielding
exactly two parts (an empty line yields one) fails with InvalidLineFormat;
otherwise the right part is decoded as a mintty color first, its error
propagating, and only then is the left part looked up among the 18 key
names, an unknown key failing with UnknownColorName. -/
theorem c4_minttyrc_line_processing :
    (∀ content, from_minttyrc content =
        (linesR content).foldlM minttyLine ColorScheme.dflt) ∧
    (∀ s line, (splitCh '=' line).length ≠ 2 →
      minttyLine s line = .error (.InvalidLineFormat line)) ∧
    (∀ s (name value : Str) c, '=' ∉ name → '=' ∉ value →
      from_mintty_color value = .ok c →
      minttyLine s (name ++ '=' :: value) = minttyAssign name c s) ∧
    (∀ s (name value : Str) e, '=' ∉ name → '=' ∉ value →
      from_mintty_color value = .error e →
      minttyLine s (name ++ '=' :: value) = .error e) ∧
    (∀ (name : Str) c s, name ∉ minttyNames →
      minttyAssign name c s = .error (.UnknownColorName name)) := by
  refine ⟨fun _ => rfl, ?_, ?_, ?_, ?_⟩
  · intro s line h
    unfold minttyLine
    rcases hsp : splitCh '=' line with _ | ⟨a, _ | ⟨b, _ | ⟨c', t⟩⟩⟩
    · rfl
    · rfl
    · rw [hsp] at h
      simp at h
    · rfl
  · intro s name value c h1 h2 h3
    unfold minttyLine
    rw [splitCh_append value h1, splitCh_not_mem h2]
    show (from_mintty_color value >>= fun color => minttyAssign name color s) =
      minttyAssign name c s
    rw [h3]
    rfl
  · intro s name value e h1 h2 h3
    unfold minttyLine
    rw [splitCh_append value h1, splitCh_not_mem h2]
    show (from_mintty_color value >>= fun color => minttyAssign name color s) =
      .error e
    rw [h3]
    rfl
  · intro name c s h
    simp only [minttyNames, List.mem_cons, List.not_mem_nil, or_false,
      not_or] at h
    obtain ⟨n1, n2, n3, n4, n5, n6, n7, n8, n9, n10, n11, n12, n13, n14, n15,
      n16, n17, n18⟩ := h
    simp only [minttyAssign, if_neg n1, if_neg n2, if_neg n3, if_neg n4,
      if_neg n5, if_neg n6, if_neg n7, if_neg n8, if_neg n9, if_neg n10,
      if_neg n11, if_neg n12, if_neg n13, if_neg n14, if_neg n15, if_neg n16,
      if_neg n17, if_neg n18]

/-- Witness for c4_minttyrc_line_processing at concrete lines. -/
theorem c4_minttyrc_line_processing_witness :
    minttyLine ColorScheme.dflt ([] : Str) = .error (.InvalidLineFormat []) ∧
    minttyLine ColorScheme.dflt (("Black=1,2,3").toList) =
      minttyAssign (("Black").toList) ⟨1, 2, 3⟩ ColorScheme.dflt ∧
    minttyAssign (("Bogus").toList) ⟨1, 2, 3⟩ ColorScheme.dflt =
      .error (.UnknownColorName (("Bogus").toList)) := by
  refine ⟨?_, ?_, ?_⟩
  · exact c4_minttyrc_line_processing.2.1 ColorScheme.dflt [] (by decide)
  · exact c4_minttyrc_line_processing.2.2.1 ColorScheme.dflt (("Black").toList)
      (("1,2,3").toList) ⟨1, 2, 3⟩ (by decide) (by decide) rfl
  · exact c4_minttyrc_line_processing.2.2.2.2 (("Bogus").toList) ⟨1, 2, 3⟩
      ColorScheme.dflt (by decide)

/-! ## Claim C8 -/

theorem parse_int_natToDec {n : ℕ} (h : n ≤ 255) :
    parse_int (natToDec n) = .ok n := by
  interval_cases n <;> rfl

theorem comma_not_mem_natToDec {n : ℕ} (h : n ≤ 255) : ',' ∉ natToDec n := by
  interval_cases n <;> decide

theorem hexValL_pad2 {n : ℕ} (h : n ≤ 255) : hexValL (pad2 n) = n := by
  interval_cases n <;> rfl

theorem pad2_lower_hex {n : ℕ} (h : n ≤ 255) :
    (pad2 n).all isLowerHexC = true := by
  interval_cases n <;> rfl

/-- Claim C8: for components in [0,255], from_mintty_color on "R,G,B"
succeeds with exactly those components, and to_hex renders "0x" followed by
each component as two zero-padded lowercase hex digits (whose hex value is
the component again); in particular "12,3,255" renders as "0x0c03ff". -/
theorem c8_mintty_roundtrip_hex (r g b : ℕ)
    (hr : r ≤ 255) (hg : g ≤ 255) (hb : b ≤ 255) :
    from_mintty_color (minttyTriple r g b) = .ok ⟨r, g, b⟩ ∧
    to_hex ⟨r, g, b⟩ = '0' :: 'x' :: (pad2 r ++ pad2 g ++ pad2 b) ∧
    hexValL (pad2 r) = r ∧ hexValL (pad2 g) = g ∧ hexValL (pad2 b) = b ∧
    (pad2 r ++ pad2 g ++ pad2 b).all isLowerHexC = true ∧
    to_hex ⟨12, 3, 255⟩ = ("0x0c03ff").toList := by
  have hsplit : splitCh ',' (minttyTriple r g b) =
      [natToDec r, natToDec g, natToDec b] := by
    unfold minttyTriple
    rw [splitCh_append _ (comma_not_mem_natToDec hr),
        splitCh_append _ (comma_not_mem_natToDec hg),
        splitCh_not_mem (comma_not_mem_natToDec hb)]
  refine ⟨?_, rfl, hexValL_pad2 hr, hexValL_pad2 hg, hexValL_pad2 hb, ?_, rfl⟩
  · unfold from_mintty_color
    rw [hsplit]
    show (do
      let red ← parse_int (natToDec r)
      let green ← parse_int (natToDec g)
      let blue ← parse_int (natToDec b)
      (.ok ⟨red, green, blue⟩ : Except ParseError Color)) = .ok ⟨r, g, b⟩
    rw [parse_int_natToDec hr, parse_int_natToDec hg, parse_int_natToDec hb]
    rfl
  · rw [List.all_append, List.all_append, pad2_lower_hex hr,
      pad2_lower_hex hg, pad2_lower_hex hb]
    rfl

/-- Witness for c8_mintty_roundtrip_hex at (12, 3, 255). -/
theorem c8_mintty_roundtrip_hex_witness :
    from_mintty_color (minttyTriple 12 3 255) = .ok ⟨12, 3, 255⟩ ∧
    to_hex ⟨12, 3, 255⟩ = ("0x0c03ff").toList :=
  ⟨(c8_mintty_roundtrip_hex 12 3 255 (by decide) (by decide) (by decide)).1,
   (c8_mintty_roundtrip_hex 12 3 255 (by decide) (by decide)
     (by decide)).2.2.2.2.2.2⟩

/-! ## Claim C10 -/

/-- Claim C10: to_toml emits the cursor block exactly when both the cursor
and the cursor_text slots are present, and when at most one of them is set
the rendered document is byte-for-byte the document of the same scheme with
neither set. -/
theorem c10_cursor_block_iff_both (s : ColorScheme) :
    (cursorColors s ≠ [] ↔ s.cursor.isSome ∧ s.cursor_text.isSome) ∧
    (s.cursor.isSome ≠ s.cursor_text.isSome →
      to_toml s = to_toml { s with cursor := none, cursor_text := none }) := by
  obtain ⟨fg, bg, ct, cu, k1, k2, k3, k4, k5, k6, k7, k8,
    m1, m2, m3, m4, m5, m6, m7, m8⟩ := s
  rcases ct with _ | ct
  · rcases cu with _ | cu
    · exact ⟨by simp [cursorColors], fun _ => rfl⟩
    · exact ⟨by simp [cursorColors], fun _ => rfl⟩
  · rcases cu with _ | cu
    · exact ⟨by simp [cursorColors], fun _ => rfl⟩
    · refine ⟨iff_of_true (List.cons_ne_nil _ _) ⟨rfl, rfl⟩, fun h => absurd rfl h⟩

/-- Witness for c10_cursor_block_iff_both at a scheme with only the cursor
slot set. -/
theorem c10_cursor_block_iff_both_witness :
    to_toml cursorOnlyScheme =
      to_toml { cursorOnlyScheme with cursor := none, cursor_text := none } :=
  (c10_cursor_block_iff_both cursorOnlyScheme).2 (by decide)

/-! ## Claim C6 -/

theorem decTail_den_pos {neg : Bool} {ip r1 : Str} {p : Bool × ℕ × ℕ}
    (h : decTail neg ip r1 = some p) : 0 < p.2.2 := by
  unfold decTail at h
  split at h
  · split at h
    · exact absurd h (by simp)
    · injection h with h'
      subst h'
      exact one_pos
  · split at h
    · injection h with h'
      subst h'
      exact pow_pos (by norm_num) _
    · exact absurd h (by simp)
  · exact absurd h (by simp)

theorem parseFloatParts_den_pos {s : Str} {p : Bool × ℕ × ℕ}
    (h : parseFloatParts s = some p) : 0 < p.2.2 := by
  unfold parseFloatParts at h
  split at h
  · exact decTail_den_pos h
  · exact decTail_den_pos h
  · exact decTail_den_pos h

/-- Claim C6: whenever the component text parses as a float value v in
[0,1], the stored byte is the truncation of v * 255 (saturating cast), and
in particular "1.0" stores 255 and "0.0" stores 0. -/
theorem c6_real_component_truncation :
    (∀ (t : Str) (v : ℚ), parsedFloatVal t = some v → 0 ≤ v → v ≤ 1 →
      extract_real_color ((("real").toList), [Xml.chars t]) =
        .ok (⌊v * 255⌋.toNat)) ∧
    extract_real_color ((("real").toList), [Xml.chars (("1.0").toList)]) =
      .ok 255 ∧
    extract_real_color ((("real").toList), [Xml.chars (("0.0").toList)]) =
      .ok 0 := by
  refine ⟨?_, rfl, rfl⟩
  intro t v hv h0 h1
  unfold parsedFloatVal at hv
  obtain ⟨q, hq, hval⟩ := Option.map_eq_some'.mp hv
  obtain ⟨neg, num, den⟩ := q
  have hden : 0 < den := parseFloatParts_den_pos hq
  have hcompute : extract_real_color ((("real").toList), [Xml.chars t]) =
      match parseFloatParts t with
      | none => .err .ParseFloat
      | some p => .ok (floatTimes255AsU8 p.1 p.2.1 p.2.2) := rfl
  rw [hcompute, hq]
  show RRes.ok (floatTimes255AsU8 neg num den) = .ok (⌊v * 255⌋.toNat)
  congr 1
  cases neg with
  | true =>
    have hv0 : v = 0 := by
      have hle : v ≤ 0 := by
        rw [← hval,
          show (if (true : Bool) then (-1 : ℚ) else 1) = -1 from rfl,
          show (-1 : ℚ) * num / den = -((num : ℚ) / den) from by ring]
        exact neg_nonpos.mpr (div_nonneg (Nat.cast_nonneg _) (Nat.cast_nonneg _))
      exact le_antisymm hle h0
    rw [hv0]
    simp [floatTimes255AsU8]
  | false =>
    have hveq : v = (num : ℚ) / den := by
      rw [← hval]
      norm_num
    have hnle : num ≤ den := by
      have : (num : ℚ) ≤ den := by
        rw [hveq] at h1
        exact (div_le_one (by exact_mod_cast hden)).mp h1
      exact_mod_cast this
    have hfloor : ⌊v * 255⌋.toNat = 255 * num / den := by
      rw [Int.floor_toNat,
        show v * 255 = ((255 * num : ℕ) : ℚ) / ((den : ℕ) : ℚ) from by
          rw [hveq]; push_cast; ring]
      exact Nat.floor_div_eq_div _ _
    rw [hfloor]
    show min 255 (255 * num / den) = 255 * num / den
    have hle255 : 255 * num / den ≤ 255 := by
      calc 255 * num / den ≤ 255 * den / den :=
            Nat.div_le_div_right (Nat.mul_le_mul_left _ hnle)
        _ = 255 := Nat.mul_div_cancel 255 hden
    exact min_eq_right hle255

/-- Witness for c6_real_component_truncation at the text "0.5": the product
127.5 truncates to 127 rather than rounding to 128. -/
theorem c6_real_component_truncation_witness :
    extract_real_color ((("real").toList), [Xml.chars (("0.5").toList)]) =
      .ok 127 := by
  have h1 : parsedFloatVal (("0.5").toList) = some (1 / 2 : ℚ) := by
    unfold parsedFloatVal
    rw [show parseFloatParts (("0.5").toList) = some (false, 5, 10) from rfl]
    show some ((if (false : Bool) then (-1 : ℚ) else 1) * 5 / 10) = some (1 / 2)
    norm_num
  rw [c6_real_component_truncation.1 (("0.5").toList) (1 / 2) h1
    (by norm_num) (by norm_num)]
  congr 1
  rw [Int.floor_toNat,
    show (1 / 2 : ℚ) * 255 = ((255 : ℕ) : ℚ) / ((2 : ℕ) : ℚ) from by norm_num,
    Nat.floor_div_eq_div]

/-! ## Claim C7 -/

theorem elemsOf_chars (s : Str) (rest : List Xml) :
    elemsOf (Xml.chars s :: rest) = elemsOf rest := rfl

theorem elemsOf_elem (nm : Str) (kc : List Xml) (rest : List Xml) :
    elemsOf (Xml.elem nm kc :: rest) = (nm, kc) :: elemsOf rest := rfl

theorem getChildren_chars (n s : Str) (rest : List Xml) :
    getChildren n (Xml.chars s :: rest) = getChildren n rest := by
  unfold getChildren
  rw [elemsOf_chars]

theorem getChildren_elem_pos (n : Str) (kc : List Xml) (rest : List Xml) :
    getChildren n (Xml.elem n kc :: rest) = (n, kc) :: getChildren n rest := by
  unfold getChildren
  rw [elemsOf_elem]
  simp [List.filter_cons]

theorem getChildren_elem_neg {n nm : Str} (h : ¬ nm = n) (kc : List Xml)
    (rest : List Xml) :
    getChildren n (Xml.elem nm kc :: rest) = getChildren n rest := by
  unfold getChildren
  rw [elemsOf_elem]
  simp [List.filter_cons, h]

/-- Claim C7 counterexample: in c7Root the key "Ansi 7 Color" carries a
string value and "Ansi 0 Color" carries the dict with Red Component 1.
Under the claimed two-at-a-time walk, "Ansi 0 Color" would receive its own
dictionary and the black slot would become red-255; the code instead zips
the key children with the dict children, pairing "Ansi 7 Color" with the
later dictionary, so the white slot receives the color and black stays at
its default. -/
theorem c7_counterexample_misassociation :
    from_iterm_root c7Root =
      .ok { ColorScheme.dflt with white := ⟨255, 0, 0⟩ } := rfl

/-- Claim C7 (amended): from_iterm extracts top-level pairs by zipping the
root dict's key element children with its dict element children in document
order; when the element children alternate strictly key, dict, key, dict
(non-element children skipped anywhere), every key is associated with its
own dictionary; a key whose value is not a dict instead shifts the pairing
positionally. -/
theorem c7_iterm_pairing (children : List Xml) :
    itermPairs children =
      (getChildren (("key").toList) children).zip
        (getChildren (("dict").toList) children) ∧
    ∀ ps, AltKD children ps → itermPairs children = ps := by
  refine ⟨rfl, ?_⟩
  intro ps h
  induction h with
  | nil => rfl
  | skip s h ih =>
    show itermPairs (Xml.chars s :: _) = _
    unfold itermPairs
    rw [getChildren_chars, getChildren_chars]
    exact ih
  | pair kc dc h ih =>
    unfold itermPairs
    rw [getChildren_elem_pos, getChildren_elem_neg (by decide),
        getChildren_elem_neg (by decide), getChildren_elem_pos,
        List.zip_cons_cons]
    exact congrArg _ ih

/-- Witness for c7_iterm_pairing on the alternating fixture. -/
theorem c7_iterm_pairing_witness :
    itermPairs altFixtureChildren =
      [((("key").toList, [Xml.chars (("Foreground Color").toList)]),
        (("dict").toList, ([] : List Xml)))] :=
  (c7_iterm_pairing altFixtureChildren).2 _
    (AltKD.skip _ (AltKD.pair _ _ AltKD.nil))

/-! ## Claim C5 -/

theorem itermStep_ok {s : ColorScheme} {kv : XmlElem × XmlElem} {t : Str}
    {c : Color} (ht : extract_text kv.1 = .ok t)
    (hc : processColorDict kv.2.2 = .ok c) :
    itermStep s kv = .ok (itermAssign t c s) := by
  simp only [itermStep, ht, hc]

theorem itermAssign_unknown {t : Str} (c : Color) (s : ColorScheme)
    (h : t ∉ itermSlotNames) : itermAssign t c s = s := by
  simp only [itermSlotNames, List.mem_cons, List.not_mem_nil, or_false,
    not_or] at h
  obtain ⟨a1, a2, a3, a4, a5, a6, a7, a8, a9, a10, a11, a12, a13, a14, a15,
    a16, a17, a18, a19, a20⟩ := h
  simp only [itermAssign, if_neg a1, if_neg a2, if_neg a3, if_neg a4,
    if_neg a5, if_neg a6, if_neg a7, if_neg a8, if_neg a9, if_neg a10,
    if_neg a11, if_neg a12, if_neg a13, if_neg a14, if_neg a15, if_neg a16,
    if_neg a17, if_neg a18, if_neg a19, if_neg a20]

/-- Claim C5: top-level tolerance and component strictness of from_iterm.
First, when every top-level key has readable text and every slot dictionary
processes without error, the fold over the key/dict pairs succeeds whatever
the key names are.  Second, a pair whose key text is not one of the 20 slot
names leaves the scheme unchanged and the step still succeeds.  Third, a
slot dictionary containing a component pair whose key is not among the five
recognized component names fails hard with UnknownColorComponent. -/
theorem c5_iterm_tolerant_slots_strict_components :
    (∀ (pairs : List (XmlElem × XmlElem)) (s : ColorScheme),
      (∀ p ∈ pairs, (∃ t, extract_text p.1 = .ok t) ∧
        ∃ c, processColorDict p.2.2 = .ok c) →
      ∃ s', pairs.foldlM itermStep s = .ok s') ∧
    (∀ (s : ColorScheme) (kv : XmlElem × XmlElem) (t : Str) (c : Color),
      extract_text kv.1 = .ok t → processColorDict kv.2.2 = .ok c →
      t ∉ itermSlotNames → itermStep s kv = .ok s) ∧
    (∀ (children : List Xml) (pre : List (XmlElem × XmlElem))
      (kv : XmlElem × XmlElem) (rest : List (XmlElem × XmlElem))
      (c : Color) (t : Str),
      chunkPairs (elemsOf children) = pre ++ kv :: rest →
      pre.foldlM componentStep Color.dflt = .ok c →
      extract_text kv.1 = .ok t → t ∉ componentNames →
      processColorDict children = .err (.UnknownColorComponent t)) := by
  refine ⟨?_, ?_, ?_⟩
  · intro pairs
    induction pairs with
    | nil => exact fun s _ => ⟨s, rfl⟩
    | cons p ps ih =>
      intro s h
      obtain ⟨⟨t, ht⟩, c, hc⟩ := h p (List.mem_cons_self p ps)
      rw [List.foldlM_cons, itermStep_ok ht hc]
      simp only [RRes.bind_eq, RRes.bind_ok]
      exact ih _ fun q hq => h q (List.mem_cons_of_mem _ hq)
  · intro s kv t c ht hc hmem
    rw [itermStep_ok ht hc, itermAssign_unknown c s hmem]
  · intro children pre kv rest c t hch hpre ht hmem
    unfold processColorDict
    rw [hch, List.foldlM_append, hpre]
    simp only [RRes.bind_eq, RRes.bind_ok]
    rw [List.foldlM_cons]
    have hstep : componentStep c kv = .err (.UnknownColorComponent t) := by
      simp only [componentNames, List.mem_cons, List.not_mem_nil, or_false,
        not_or] at hmem
      obtain ⟨b1, b2, b3, b4, b5⟩ := hmem
      simp only [componentStep, ht, if_neg b1, if_neg b2, if_neg b3,
        if_neg b4, if_neg b5]
    rw [hstep]
    rfl

/-- Witness for c5_iterm_tolerant_slots_strict_components at a bogus slot
name and a bogus component key. -/
theorem c5_iterm_tolerant_slots_strict_components_witness :
    (∃ s', [bogusSlotPair].foldlM itermStep ColorScheme.dflt = .ok s') ∧
    itermStep ColorScheme.dflt bogusSlotPair = .ok ColorScheme.dflt ∧
    processColorDict weirdComponentDict =
      .err (.UnknownColorComponent (("Weird Component").toList)) := by
  refine ⟨?_, ?_, ?_⟩
  · refine c5_iterm_tolerant_slots_strict_components.1 [bogusSlotPair]
      ColorScheme.dflt ?_
    intro p hp
    simp only [List.mem_singleton] at hp
    subst hp
    exact ⟨⟨_, rfl⟩, _, rfl⟩
  · exact c5_iterm_tolerant_slots_strict_components.2.1 ColorScheme.dflt
      bogusSlotPair (("Bogus Color").toList) Color.dflt rfl rfl (by decide)
  · exact c5_iterm_tolerant_slots_strict_components.2.2 weirdComponentDict []
      ((("key").toList, [Xml.chars (("Weird Component").toList)]),
        (("real").toList, [Xml.chars (("1").toList)])) [] Color.dflt
      (("Weird Component").toList) rfl rfl rfl (by decide)

/-! ## Claim C9 -/

theorem hexVal_lt_16 {c : Char} (h : isHexC c = true) : hexVal c < 16 := by
  simp only [isHexC, Bool.or_eq_true, decide_eq_true_eq] at h
  unfold hexVal
  rcases h with ⟨h1, h2⟩ | ⟨h1, h2⟩ | ⟨h1, h2⟩ <;> split_ifs <;> omega

theorem isHexC_ne_plus {c : Char} (h : isHexC c = true) : ¬ c = '+' := by
  intro he
  subst he
  exact absurd h (by decide)

theorem stripPlus_pair {a b : Char} (ha : isHexC a = true) :
    stripPlus [a, b] = [a, b] := by
  unfold stripPlus
  rw [if_neg]
  intro he
  simp only [List.head?, Option.some.injEq] at he
  exact isHexC_ne_plus ha he

theorem parse_hex_pair {a b : Char} (ha : isHexC a = true)
    (hb : isHexC b = true) :
    parse_hex [a, b] = .ok (hexVal a * 16 + hexVal b) := by
  have hv : hexValL [a, b] = hexVal a * 16 + hexVal b := by
    simp [hexValL, List.foldl]
  unfold parse_hex
  rw [stripPlus_pair ha, hv,
    if_pos ⟨by simp, by simp [List.all_cons, ha, hb]⟩,
    if_pos (by have := hexVal_lt_16 ha; have := hexVal_lt_16 hb; omega)]

theorem matchColor_shape {l cs : Str} (h : matchColor l = some cs) :
    ∃ hex, cs = '#' :: hex ∧ hex.length = 6 ∧ hex.all isHexC = true := by
  unfold matchColor at h
  split at h
  · rename_i rest
    split at h
    · rename_i hcond
      injection h with h
      exact ⟨rest.take 6, h.symm, hcond.1, hcond.2.1⟩
    · exact absurd h (by simp)
  · exact absurd h (by simp)

theorem from_gogh_color_hex {cs hex : Str} (hcs : cs = '#' :: hex)
    (hlen : hex.length = 6) (hall : hex.all isHexC = true) :
    ∃ c, from_gogh_color cs = .ok c := by
  rcases hex with _ | ⟨a, _ | ⟨b, _ | ⟨c, _ | ⟨d, _ | ⟨e, _ | ⟨f, tl⟩⟩⟩⟩⟩⟩ <;>
    simp only [List.length] at hlen
  · omega
  · omega
  · omega
  · omega
  · omega
  · omega
  · have htl : tl = [] := List.eq_nil_of_length_eq_zero (by omega)
    subst htl
    subst hcs
    simp only [List.all_cons, List.all_nil, Bool.and_eq_true,
      Bool.and_true] at hall
    obtain ⟨ha, hb, hc', hd, he, hf⟩ := hall
    refine ⟨⟨hexVal a * 16 + hexVal b, hexVal c * 16 + hexVal d,
      hexVal e * 16 + hexVal f⟩, ?_⟩
    simp only [from_gogh_color,
      show sliceR ['#', a, b, c, d, e, f] 1 3 = some [a, b] from rfl,
      show sliceR ['#', a, b, c, d, e, f] 3 5 = some [c, d] from rfl,
      show sliceR ['#', a, b, c, d, e, f] 5 7 = some [e, f] from rfl,
      parse_hex_pair ha hb, parse_hex_pair hc' hd, parse_hex_pair he hf]

theorem matchAt_shape {l : Str} {r : Str × Str} (h : matchAt l = some r) :
    ∃ hex, r.2 = '#' :: hex ∧ hex.length = 6 ∧ hex.all isHexC = true := by
  unfold matchAt at h
  split at h
  · exact absurd h (by simp)
  · split at h
    · exact absurd h (by simp)
    · split at h
      · exact absurd h (by simp)
      · obtain ⟨cs, hcs, hr⟩ := Option.map_eq_some'.mp h
        obtain ⟨hex, h1, h2, h3⟩ := matchColor_shape hcs
        exact ⟨hex, by rw [← hr]; exact h1, h2, h3⟩

theorem findMatch_shape {l : Str} {r : Str × Str} (h : findMatch l = some r) :
    ∃ hex, r.2 = '#' :: hex ∧ hex.length = 6 ∧ hex.all isHexC = true := by
  induction l with
  | nil => exact absurd h (by simp [findMatch])
  | cons x xs ih =>
    unfold findMatch at h
    split at h
    · rename_i r' heq
      injection h with h
      subst h
      exact matchAt_shape heq
    · exact ih h

theorem goghLine_ok (s : ColorScheme) (line : Str) :
    ∃ s', goghLine s line = .ok s' := by
  rcases hfm : findMatch line with _ | ⟨name, cs⟩
  · exact ⟨s, by unfold goghLine; rw [hfm]⟩
  · obtain ⟨hex, h1, h2, h3⟩ := findMatch_shape hfm
    have h1' : cs = '#' :: hex := h1
    obtain ⟨c, hc⟩ := from_gogh_color_hex h1' h2 h3
    exact ⟨goghAssign name c s, by simp only [goghLine, hfm, hc]⟩

theorem foldlM_goghLine_ok (ls : List Str) :
    ∀ s, ∃ s', ls.foldlM goghLine s = .ok s' := by
  induction ls with
  | nil => exact fun s => ⟨s, rfl⟩
  | cons l ls ih =>
    intro s
    obtain ⟨s1, h1⟩ := goghLine_ok s l
    obtain ⟨s2, h2⟩ := ih s1
    refine ⟨s2, ?_⟩
    rw [List.foldlM_cons, h1]
    simp only [RRes.bind_eq, RRes.bind_ok]
    exact h2

theorem goghAssign_unknown {name : Str} (c : Color) (s : ColorScheme)
    (h : name ∉ goghNames) : goghAssign name c s = s := by
  simp only [goghNames, List.mem_cons, List.not_mem_nil, or_false,
    not_or] at h
  obtain ⟨g1, g2, g3, g4, g5, g6, g7, g8, g9, g10, g11, g12, g13, g14, g15,
    g16, g17, g18⟩ := h
  simp only [goghAssign, if_neg g1, if_neg g2, if_neg g3, if_neg g4,
    if_neg g5, if_neg g6, if_neg g7, if_neg g8, if_neg g9, if_neg g10,
    if_neg g11, if_neg g12, if_neg g13, if_neg g14, if_neg g15, if_neg g16,
    if_neg g17, if_neg g18]

/-- Claim C9: from_gogh never fails.  A line on which the export pattern
finds no match is skipped with the scheme unchanged; a matching line whose
name capture is not recognized is also skipped with the scheme unchanged
(the color capture, guaranteed by the pattern to be a hash and six hex
digits, always decodes); and the recognized names map COLOR_01..08 to the
eight normal slots in ANSI order, COLOR_09..16 to the eight bright slots in
the same order, plus the foreground and background names. -/
theorem c9_gogh_permissive :
    (∀ content, ∃ s, from_gogh content = .ok s) ∧
    (∀ s line, findMatch line = none → goghLine s line = .ok s) ∧
    (∀ s line (name cs : Str), findMatch line = some (name, cs) →
      name ∉ goghNames → goghLine s line = .ok s) ∧
    (∀ s c,
      goghAssign (("FOREGROUND_COLOR").toList) c s = { s with foreground := c } ∧
      goghAssign (("BACKGROUND_COLOR").toList) c s = { s with background := c } ∧
      goghAssign (("COLOR_01").toList) c s = { s with black := c } ∧
      goghAssign (("COLOR_02").toList) c s = { s with red := c } ∧
      goghAssign (("COLOR_03").toList) c s = { s with green := c } ∧
      goghAssign (("COLOR_04").toList) c s = { s with yellow := c } ∧
      goghAssign (("COLOR_05").toList) c s = { s with blue := c } ∧
      goghAssign (("COLOR_06").toList) c s = { s with magenta := c } ∧
      goghAssign (("COLOR_07").toList) c s = { s with cyan := c } ∧
      goghAssign (("COLOR_08").toList) c s = { s with white := c } ∧
      goghAssign (("COLOR_09").toList) c s = { s with bright_black := c } ∧
      goghAssign (("COLOR_10").toList) c s = { s with bright_red := c } ∧
      goghAssign (("COLOR_11").toList) c s = { s with bright_green := c } ∧
      goghAssign (("COLOR_12").toList) c s = { s with bright_yellow := c } ∧
      goghAssign (("COLOR_13").toList) c s = { s with bright_blue := c } ∧
      goghAssign (("COLOR_14").toList) c s = { s with bright_magenta := c } ∧
      goghAssign (("COLOR_15").toList) c s = { s with bright_cyan := c } ∧
      goghAssign (("COLOR_16").toList) c s = { s with bright_white := c }) := by
  refine ⟨?_, ?_, ?_, ?_⟩
  · exact fun content => foldlM_goghLine_ok (linesR content) ColorScheme.dflt
  · intro s line h
    unfold goghLine
    rw [h]
  · intro s line name cs hfm hmem
    obtain ⟨hex, h1, h2, h3⟩ := findMatch_shape hfm
    have h1' : cs = '#' :: hex := h1
    obtain ⟨c, hc⟩ := from_gogh_color_hex h1' h2 h3
    simp only [goghLine, hfm, hc]
    rw [goghAssign_unknown c s hmem]
  · exact fun s c => ⟨rfl, rfl, rfl, rfl, rfl, rfl, rfl, rfl, rfl, rfl, rfl,
      rfl, rfl, rfl, rfl, rfl, rfl, rfl⟩

/-- Witness for c9_gogh_permissive at concrete lines. -/
theorem c9_gogh_permissive_witness :
    (∃ s, from_gogh (("export AAA=\"#001122\"\necho hi").toList) = .ok s) ∧
    goghLine ColorScheme.dflt (("echo hi").toList) = .ok ColorScheme.dflt ∧
    goghLine ColorScheme.dflt (("export AAA=\"#001122\"").toList) =
      .ok ColorScheme.dflt :=
  ⟨c9_gogh_permissive.1 _,
   c9_gogh_permissive.2.1 ColorScheme.dflt _ rfl,
   c9_gogh_permissive.2.2.1 ColorScheme.dflt _ (("AAA").toList)
     (("#001122").toList) rfl (by decide)⟩

end Colortty
